import Mathlib

/-!
# Verification of the aoostar-rs Sensor Page Engine

Shallow embedding of the sensor page engine of `aoostar-rs`:
the sensor store merge (`crates/asterctl/src/sensors.rs`), the template
compiler, page builder, display schedule (`crates/asterctl/src/main.rs`),
and the atomic sensor-file writer (`crates/aster-sysinfo/src/main.rs`).

Regular expressions come from the external `regex` crate; a compiled regex
is modelled extensionally as its matching function
`String → Option (Nat → Option String)` (key ↦ optional capture groups),
and regex compilation as a function `String → Option Matcher`
(`None` = compilation error). Sensor filters are modelled as their
boolean matching functions.
-/

namespace Aoostar

/-- Capture groups of one regex match: group index ↦ captured text
(the `regex` crate's `Captures::get`). -/
abbrev Caps := Nat → Option String

/-- A compiled regex, modelled extensionally by its matching function
(`Regex::captures`). -/
abbrev Matcher := String → Option Caps

/-- The fields of the configured `Sensor` template that the page engine
examines (`match_pattern`, `name`, `item_name`); all remaining fields are
display metadata passed through unexamined. -/
structure Sensor where
  match_pattern : Option String
  name : Option String
  item_name : Option String
deriving DecidableEq, Repr

/-- `CompiledTemplate` from `asterctl/src/main.rs`: a compiled regex plus
its sensor template. -/
structure CompiledTemplate where
  regex : Matcher
  sensor : Sensor

/-- One panel of the monitor configuration: its list of sensor templates. -/
structure Panel where
  sensor : List Sensor
deriving Repr

/-- The `setup` fields of `MonitorConfig` used by the page engine. -/
structure Setup where
  time_page : Option String
  display_on_hour : Option Nat
  display_off_hour : Option Nat
deriving DecidableEq, Repr

/-- The fields of `MonitorConfig` used by the page engine. -/
structure MonitorConfig where
  active_panels : List Nat
  panels : List Panel
  setup : Setup

/-- `SensorPage` from `asterctl/src/main.rs`. -/
structure SensorPage where
  sensor_key : String
  display_name : String
  template : Sensor
deriving DecidableEq, Repr

/-- `PageKind` from `asterctl/src/main.rs`. -/
inductive PageKind where
  | sensor (sp : SensorPage)
  | time (label : String)
deriving DecidableEq, Repr

/-! ## String replacement

Rust's `str::replace` replaces all non-overlapping occurrences of a
pattern, scanning left to right. `replaceFuel` implements exactly that on
character lists; the fuel argument (initialised to the subject's length,
an upper bound on the number of steps) only makes the recursion
structural. An empty pattern never occurs here (placeholders are `{i}`);
it is mapped to the identity. -/

def replaceFuel (pat rep : List Char) : Nat → List Char → List Char
  | 0, s => s
  | _ + 1, [] => []
  | fuel + 1, c :: rest =>
      if pat ≠ [] ∧ pat.isPrefixOf (c :: rest) then
        rep ++ replaceFuel pat rep fuel ((c :: rest).drop pat.length)
      else
        c :: replaceFuel pat rep fuel rest

/-- Rust `str::replace` (for the non-empty patterns used by the engine). -/
def rustReplace (s pat rep : String) : String :=
  ⟨replaceFuel pat.data rep.data s.data.length s.data⟩

/-- The placeholder text `{i}` substituted by `expand_template_name`. -/
def placeholder (i : Nat) : String := "\x7b" ++ toString i ++ "\x7d"

/-- `expand_template_name` from `asterctl/src/main.rs`: the base display
name is `sensor.name`, falling back to `sensor.item_name`, falling back to
`"Sensor"`; then the placeholders `{1}` … `{9}` are replaced in turn by
the text of the corresponding capture group, when that group matched. -/
def expand_template_name (sensor : Sensor) (caps : Caps) : String :=
  let base := (sensor.name.or sensor.item_name).getD "Sensor"
  (List.range' 1 9).foldl
    (fun result i =>
      match caps i with
      | some m => rustReplace result (placeholder i) m
      | none => result)
    base

/-- Modelled from the `regex` crate semantics of the concrete pattern
`^cpu_(\d+)_temp$` used in the specification's example: the key is
`cpu_`, then one or more ASCII digits (capture group 1), then `_temp`. -/
def cpu_temp_captures (s : String) : Option Caps :=
  let cs := s.data
  if "cpu_".data.isPrefixOf cs then
    let rest := cs.drop 4
    if "_temp".data.isSuffixOf rest then
      let mid := rest.take (rest.length - 5)
      if mid ≠ [] ∧ mid.all (·.isDigit) ∧ mid.length + 5 = rest.length then
        some fun i =>
          if i = 0 then some s else if i = 1 then some ⟨mid⟩ else none
      else none
    else none
  else none

/-! ## Display schedule -/

/-- `is_display_active` from `asterctl/src/main.rs`, with the current
hour of day (0–23, read from the local clock in the source) passed
explicitly. -/
def is_display_active_at (on_hour off_hour : Option Nat) (hour : Nat) : Bool :=
  match on_hour, off_hour with
  | none, none => true
  | some onH, none => decide (hour ≥ onH)
  | none, some offH => decide (hour < offH)
  | some onH, some offH =>
      if onH ≤ offH then decide (hour ≥ onH) && decide (hour < offH)
      else decide (hour ≥ onH) || decide (hour < offH)

/-! ## Sensor store

The shared `HashMap<String, String>` is modelled as an association list;
`insertKV` is `HashMap::insert` (replace the value of an existing key,
otherwise add the entry). Lookup is `List.lookup`. -/

/-- The sensor store: sensor key ↦ sensor value. -/
abbrev Store := List (String × String)

/-- `HashMap::insert`: replace the value of an existing key, otherwise
append the new entry. -/
def insertKV (t : Store) (k v : String) : Store :=
  if t.any fun p => decide (p.1 = k) then
    t.map fun p => if p.1 = k then (k, v) else p
  else t ++ [(k, v)]

/-- The keys of the store. -/
def storeKeys (t : Store) : List String := t.map Prod.fst

/-- `is_filtered` from `asterctl/src/sensors.rs`: a key is filtered when
any filter regex matches it (filters modelled by their `is_match`
functions). -/
def is_filtered (key : String) (filters : List (String → Bool)) : Bool :=
  filters.any fun re => re key

/-- The loop body of `apply_sensor_values` for one raw entry: skip it
when a filter list is configured and some filter matches its key,
otherwise insert it. -/
def merge_step (sensor_filter : Option (List (String → Bool)))
    (t : Store) (kv : String × String) : Store :=
  match sensor_filter with
  | some filter => if is_filtered kv.1 filter then t else insertKV t kv.1 kv.2
  | none => insertKV t kv.1 kv.2

/-- `apply_sensor_values` from `asterctl/src/sensors.rs`: insert every
entry of `source` whose key is not excluded by the filter into `target`;
nothing is ever removed. -/
def apply_sensor_values (target : Store) (source : List (String × String))
    (sensor_filter : Option (List (String → Bool))) : Store :=
  source.foldl (merge_step sensor_filter) target

/-- Lookup in the store (the map semantics of the association list):
the value of the first entry with the given key. -/
def storeGet : Store → String → Option String
  | [], _ => none
  | p :: t, k => if p.1 = k then some p.2 else storeGet t k

/-- Whether the merge keeps entries with this key: it does unless a
filter list is configured and some filter matches the key. -/
def store_kept (sensor_filter : Option (List (String → Bool))) (k : String) : Bool :=
  match sensor_filter with
  | some filter => !is_filtered k filter
  | none => true

/-- The store contents after a sequence of poller merges applied to the
initial empty store with a fixed exclusion-filter list
(`start_sensor_poller`'s loop calling `apply_sensor_values`). -/
def store_after (filter : List (String → Bool))
    (seq : List (List (String × String))) : Store :=
  seq.foldl (fun t raw => apply_sensor_values t raw (some filter)) []

/-! ## Template compilation -/

/-- The loop body of `compile_sensor_templates` for one sensor template:
skip sensors without a pattern; compile each pattern, keeping the
compiled template on success and recording the offending pattern as a
warning (`warn!` identifying the pattern) on failure. -/
def template_step (compile : String → Option Matcher)
    (acc : List CompiledTemplate × List String) (sensor : Sensor) :
    List CompiledTemplate × List String :=
  match sensor.match_pattern with
  | none => acc
  | some pattern =>
      match compile pattern with
      | some re => (acc.1 ++ [⟨re, sensor⟩], acc.2)
      | none => (acc.1, acc.2 ++ [pattern])

/-- The inner loop of `compile_sensor_templates` over one panel's
sensors. Returns (compiled templates, warned patterns), both in
configured order. -/
def panel_templates (compile : String → Option Matcher) (panel : Panel) :
    List CompiledTemplate × List String :=
  panel.sensor.foldl (template_step compile) ([], [])

/-- The loop body of `compile_sensor_templates` for one active-panel
index: a 1-based index of 0 or beyond the panel list is skipped
silently; otherwise the indexed panel's templates are appended. The
panel access `cfg.panels[active - 1]` panics in Rust when out of bounds;
the panic is modelled by `none` (via `List.get?`). -/
def cst_step (compile : String → Option Matcher) (cfg : MonitorConfig)
    (acc : Option (List CompiledTemplate × List String)) (active : Nat) :
    Option (List CompiledTemplate × List String) :=
  acc.bind fun tw =>
    if active = 0 ∨ active > cfg.panels.length then some tw
    else
      (cfg.panels.get? (active - 1)).map fun panel =>
        let pt := panel_templates compile panel
        (tw.1 ++ pt.1, tw.2 ++ pt.2)

/-- `compile_sensor_templates` from `asterctl/src/main.rs`: fold
`cst_step` over the configured active-panel indices. A `some` result
means no panel access panicked. -/
def compile_sensor_templates (compile : String → Option Matcher)
    (cfg : MonitorConfig) : Option (List CompiledTemplate × List String) :=
  cfg.active_panels.foldl (cst_step compile cfg) (some ([], []))

/-- The active panel indices that pass the bounds guard of
`compile_sensor_templates` (non-zero and within the panel list). -/
def valid_active_panels (cfg : MonitorConfig) : List Nat :=
  cfg.active_panels.filter fun a => !decide (a = 0 ∨ a > cfg.panels.length)

/-- The panel selected by one (1-based) active panel index, `none` when
the index is out of range. -/
def panel_at (cfg : MonitorConfig) (a : Nat) : Option Panel :=
  if a = 0 ∨ a > cfg.panels.length then none
  else cfg.panels.get? (a - 1)

/-- The panels selected by the (1-based) active panel indices, in
configured order, with out-of-range indices skipped. -/
def active_panel_list (cfg : MonitorConfig) : List Panel :=
  cfg.active_panels.filterMap (panel_at cfg)

/-! ## Page building -/

/-- The collected sensor keys of the snapshot, sorted lexicographically
(`keys.sort()` in `build_pages`). -/
def sorted_sensor_keys (store : Store) : List String :=
  List.insertionSort (· ≤ ·) (storeKeys store)

/-- The first inner loop of `build_pages` for one template: scan the keys,
skip those already claimed, and record (key, expanded display name) for
every key the template's regex matches. -/
def template_matches (t : CompiledTemplate) (keys matched : List String) :
    List (String × String) :=
  keys.filterMap fun k =>
    if k ∈ matched then none
    else (t.regex k).map fun caps => (k, expand_template_name t.sensor caps)

/-- The template loop of `build_pages`: for each template in order,
collect its matches among unclaimed keys, claim those keys, and append
their sensor pages. -/
def build_pages_aux :
    List CompiledTemplate → List String → List String → List PageKind → List PageKind
  | [], _, _, pages => pages
  | t :: ts, keys, matched, pages =>
      let ms := template_matches t keys matched
      build_pages_aux ts keys (matched ++ ms.map Prod.fst)
        (pages ++ ms.map fun kd => .sensor ⟨kd.1, kd.2, t.sensor⟩)

/-- The optional trailing time page (`cfg.setup.time_page`). -/
def time_page_list (cfg : MonitorConfig) : List PageKind :=
  (cfg.setup.time_page.map PageKind.time).toList

/-- `build_pages` from `asterctl/src/main.rs`: sort the snapshot's keys,
match them against the templates in configured order with first-match-wins
claiming, and append the optional time page. -/
def build_pages (templates : List CompiledTemplate) (store : Store)
    (cfg : MonitorConfig) : List PageKind :=
  build_pages_aux templates (sorted_sensor_keys store) [] [] ++ time_page_list cfg

/-- The sensor keys of the sensor pages of a page list, in page order. -/
def pages_sensor_keys (pages : List PageKind) : List String :=
  pages.filterMap fun p =>
    match p with
    | .sensor sp => some sp.sensor_key
    | .time _ => none

/-- The matches of one template against a pool of still-unclaimed keys
(no claimed set: the pool already excludes claimed keys). -/
def tmatches (t : CompiledTemplate) (pool : List String) : List (String × String) :=
  pool.filterMap fun k => (t.regex k).map fun caps => (k, expand_template_name t.sensor caps)

/-- The sensor pages of one template's matches. -/
def tpages (t : CompiledTemplate) (pool : List String) : List PageKind :=
  (tmatches t pool).map fun kd => PageKind.sensor ⟨kd.1, kd.2, t.sensor⟩

/-- The normal form of the template loop of `build_pages`: one chunk of
sensor pages per template, in configured template order, each template
matching against the pool of keys left unmatched by all earlier
templates. -/
def build_chunks : List CompiledTemplate → List String → List (List PageKind)
  | [], _ => []
  | t :: ts, pool =>
      tpages t pool :: build_chunks ts (pool.filter fun k => (t.regex k).isNone)

/-- The first template in configured order whose regex matches the key. -/
def first_match (templates : List CompiledTemplate) (k : String) :
    Option CompiledTemplate :=
  templates.find? fun t => (t.regex k).isSome

/-- The pages of a page list that are sensor pages for the given key. -/
def pages_with_key (k : String) (pages : List PageKind) : List PageKind :=
  pages.filter fun p =>
    match p with
    | .sensor sp => decide (sp.sensor_key = k)
    | .time _ => false

/-! ## Startup and periodic rebuild (`run_sensor_panel`) -/

/-- The startup page build in `run_sensor_panel`: an empty build is a
fatal error (`Err(anyhow!(...))`), otherwise the pages are returned. -/
def startup_pages (templates : List CompiledTemplate) (store : Store)
    (cfg : MonitorConfig) : Except String (List PageKind) :=
  let pages := build_pages templates store cfg
  if pages.isEmpty then
    .error "No pages to display (no sensors matched any template)"
  else .ok pages

/-- The rebuild point of the page cycling loop in `run_sensor_panel`:
when `page_idx` has wrapped to 0, rebuild against the latest snapshot and
replace the active pages only when the result is non-empty. -/
def cycle_rebuild (templates : List CompiledTemplate) (store : Store)
    (cfg : MonitorConfig) (pages : List PageKind) (page_idx : Nat) :
    List PageKind :=
  if page_idx = 0 then
    let new_pages := build_pages templates store cfg
    if new_pages.isEmpty then pages else new_pages
  else pages

/-! ## Sensor file writer (`aster-sysinfo/src/main.rs`)

`write_sensor_file` is modelled by the trace of filesystem operations it
performs. `fsStep` interprets a trace: only `writeTempLine` mutates the
temporary file and only `persistTempTo` (the atomic rename of the
`tempfile` crate's `persist`) mutates the destination, replacing its
content wholesale by the temporary file's content. -/

/-- One filesystem operation of the sensor file writer. -/
inductive FsOp where
  | createDirAll (path : String)
  | createTemp (dir : Option String) (mode : Nat)
  | writeTempLine (line : String)
  | flushTemp
  | persistTempTo (dest : String)
deriving DecidableEq, Repr

/-- `write_sensor_file` from `aster-sysinfo/src/main.rs` as its filesystem
trace. A destination that is a directory aborts the process (`exit(1)`,
modelled by `none`). With an explicit temp dir the dir is created first
and the uniquely named temp file is created inside it; either way the temp
file is created with mode `0o664` (world-readable), one `label: value`
line is written per entry, the stream is flushed and dropped, and the temp
file is persisted (atomically renamed) over the destination. -/
def write_sensor_file (out_is_dir : Bool) (out_file : String)
    (temp_dir : Option String) (sensors : List (String × String)) :
    Option (List FsOp) :=
  if out_is_dir then none
  else
    some
      ((match temp_dir with
        | some p => [.createDirAll p, .createTemp (some p) 0o664]
        | none => [.createTemp none 0o664])
        ++ sensors.map (fun lv => .writeTempLine (lv.1 ++ ": " ++ lv.2))
        ++ [.flushTemp, .persistTempTo out_file])

/-- The `label: value` lines of a sensor mapping, in iteration order. -/
def sensor_lines (sensors : List (String × String)) : List String :=
  sensors.map fun lv => lv.1 ++ ": " ++ lv.2

/-- Filesystem state: the temporary file's lines and the destination
file's lines. -/
structure FsState where
  temp : List String
  dest : List String
deriving DecidableEq, Repr

/-- Interpret one filesystem operation. Creating the temp file starts it
empty; writing appends a line to it; persisting atomically replaces the
destination's content by the temp file's content. Nothing else touches
the destination. -/
def fsStep (s : FsState) : FsOp → FsState
  | .createTemp _ _ => { s with temp := [] }
  | .writeTempLine l => { s with temp := s.temp ++ [l] }
  | .persistTempTo _ => { s with dest := s.temp }
  | .createDirAll _ => s
  | .flushTemp => s

/-- Every destination content observable while a trace runs (the state
after each prefix of the trace). -/
def destObservations (init : FsState) (ops : List FsOp) : List (List String) :=
  (List.scanl fsStep init ops).map FsState.dest

/-! ## Theorems -/

/-- Substituting with capture functions that agree on every index of the
list yields the same result. -/
lemma subst_foldl_congr (caps caps' : Caps) (l : List Nat)
    (h : ∀ i ∈ l, caps i = caps' i) (base : String) :
    l.foldl
        (fun result i =>
          match caps i with
          | some m => rustReplace result (placeholder i) m
          | none => result) base
      = l.foldl
        (fun result i =>
          match caps' i with
          | some m => rustReplace result (placeholder i) m
          | none => result) base := by
  induction l generalizing base with
  | nil => rfl
  | cons a l ih =>
      simp only [List.foldl_cons]
      rw [h a (by simp)]
      exact ih (fun i hi => h i (by simp [hi])) _

/-- Substituting with a capture function that captures nothing on the
listed indices leaves the base name unchanged. -/
lemma subst_foldl_none (caps : Caps) (l : List Nat)
    (h : ∀ i ∈ l, caps i = none) (base : String) :
    l.foldl
        (fun result i =>
          match caps i with
          | some m => rustReplace result (placeholder i) m
          | none => result) base = base := by
  induction l generalizing base with
  | nil => rfl
  | cons a l ih =>
      simp only [List.foldl_cons]
      rw [h a (by simp)]
      exact ih (fun i hi => h i (by simp [hi])) _

/-- C3: the display name is the template's name (falling back to the
secondary `item_name` field, then to the generic `"Sensor"` label) with
`{1}`–`{9}` replaced by the corresponding capture group text; capture
groups with index greater than 9 are never consulted, so their
placeholders stay literal. Pattern `^cpu_(\d+)_temp$` with name
`"Core {1}"` on key `cpu_2_temp` yields `"Core 2"`. -/
theorem expand_template_name_spec :
    (∃ caps, cpu_temp_captures "cpu_2_temp" = some caps ∧
        expand_template_name ⟨some "p", some "Core {1}", none⟩ caps = "Core 2")
    ∧ (∀ sensor caps caps', (∀ i, 1 ≤ i → i ≤ 9 → caps i = caps' i) →
        expand_template_name sensor caps = expand_template_name sensor caps')
    ∧ (∀ mp nm iname caps, (∀ i, 1 ≤ i → i ≤ 9 → caps i = none) →
        expand_template_name ⟨mp, nm, iname⟩ caps = (nm.or iname).getD "Sensor")
    ∧ expand_template_name ⟨none, some "Core {10}", none⟩
        (fun i => if i = 10 then some "7" else none) = "Core {10}" := by
  refine ⟨⟨_, rfl, by decide⟩,
    fun sensor caps caps' h => ?_, fun mp nm iname caps h => ?_, by decide⟩
  · unfold expand_template_name
    exact subst_foldl_congr _ _ _
      (fun i hi => h i (List.mem_range'_1.mp hi).1
        (by have := (List.mem_range'_1.mp hi).2; omega)) _
  · unfold expand_template_name
    exact subst_foldl_none _ _
      (fun i hi => h i (List.mem_range'_1.mp hi).1
        (by have := (List.mem_range'_1.mp hi).2; omega)) _

/-- Witness for C3: capture groups outside 1–9 are irrelevant at a
concrete input. -/
theorem expand_template_name_spec_witness :
    expand_template_name ⟨none, some "W {2}", none⟩
        (fun i => if i = 2 then some "9" else if i = 11 then some "zzz" else none)
      = expand_template_name ⟨none, some "W {2}", none⟩
        (fun i => if i = 2 then some "9" else none) :=
  expand_template_name_spec.2.1 _ _ _
    (fun i h1 h9 => by
      have h11 : i ≠ 11 := by omega
      simp [h11])

/-- C4: the display-active decision, case by case: neither hour set →
always active; only `onHour` → active iff `hour ≥ onHour`; only
`offHour` → active iff `hour < offHour`; both with `onHour ≤ offHour` →
active iff `onHour ≤ hour < offHour`; both with `onHour > offHour`
(wraparound) → active iff `hour ≥ onHour ∨ hour < offHour`. -/
theorem is_display_active_cases (hour : Nat) :
    is_display_active_at none none hour = true
    ∧ (∀ onH, is_display_active_at (some onH) none hour = true ↔ onH ≤ hour)
    ∧ (∀ offH, is_display_active_at none (some offH) hour = true ↔ hour < offH)
    ∧ (∀ onH offH, onH ≤ offH →
        (is_display_active_at (some onH) (some offH) hour = true ↔
          onH ≤ hour ∧ hour < offH))
    ∧ (∀ onH offH, offH < onH →
        (is_display_active_at (some onH) (some offH) hour = true ↔
          onH ≤ hour ∨ hour < offH)) := by
  refine ⟨rfl, fun onH => ?_, fun offH => ?_,
    fun onH offH h => ?_, fun onH offH h => ?_⟩
  · simp [is_display_active_at, ge_iff_le]
  · simp [is_display_active_at]
  · simp [is_display_active_at, if_pos h, ge_iff_le]
  · simp [is_display_active_at, if_neg (Nat.not_le.mpr h), ge_iff_le]

/-- Witness for C4: the specification's wraparound examples
(on=22, off=6 at hours 23, 3 and 10). -/
theorem is_display_active_cases_witness :
    (is_display_active_at (some 22) (some 6) 23 = true ↔ 22 ≤ 23 ∨ 23 < 6)
    ∧ (is_display_active_at (some 22) (some 6) 3 = true ↔ 22 ≤ 3 ∨ 3 < 6)
    ∧ (is_display_active_at (some 22) (some 6) 10 = true ↔ 22 ≤ 10 ∨ 10 < 6) :=
  ⟨(is_display_active_cases 23).2.2.2.2 22 6 (by decide),
   (is_display_active_cases 3).2.2.2.2 22 6 (by decide),
   (is_display_active_cases 10).2.2.2.2 22 6 (by decide)⟩

/-- C6: an empty build at startup is fatal (`startup_pages` returns the
error instead of a page list), while an empty periodic rebuild retains
the previous page set unchanged, so cycling over a non-empty set never
collapses to an empty one; a non-empty rebuild at the wrap point
replaces the set. -/
theorem startup_fatal_rebuild_retains (templates : List CompiledTemplate)
    (store store' : Store) (cfg : MonitorConfig) (pages : List PageKind) :
    (build_pages templates store cfg = [] →
      startup_pages templates store cfg =
        Except.error "No pages to display (no sensors matched any template)")
    ∧ (build_pages templates store cfg ≠ [] →
      startup_pages templates store cfg =
        Except.ok (build_pages templates store cfg))
    ∧ (build_pages templates store' cfg = [] →
      ∀ idx, cycle_rebuild templates store' cfg pages idx = pages)
    ∧ (build_pages templates store' cfg ≠ [] →
      cycle_rebuild templates store' cfg pages 0 =
        build_pages templates store' cfg)
    ∧ (pages ≠ [] → ∀ idx, cycle_rebuild templates store' cfg pages idx ≠ []) := by
  refine ⟨fun h => ?_, fun h => ?_, fun h idx => ?_, fun h => ?_, fun h idx => ?_⟩
  · simp [startup_pages, h]
  · simp [startup_pages, List.isEmpty_iff, h]
  · simp [cycle_rebuild, h]
  · simp [cycle_rebuild, List.isEmpty_iff, h]
  · by_cases hidx : idx = 0
    · by_cases hb : (build_pages templates store' cfg).isEmpty
      · simp [cycle_rebuild, hidx, hb, h]
      · have hne : build_pages templates store' cfg ≠ [] := by
          simpa [List.isEmpty_iff] using hb
        simp [cycle_rebuild, hidx, hb, hne]
    · simp [cycle_rebuild, hidx, h]

/-- Witness for C6: with no templates, no sensors and no time page the
startup build fails fatally; an empty rebuild keeps the previous pages;
a configured time page makes the rebuild non-empty and replaces them. -/
theorem startup_fatal_rebuild_retains_witness :
    startup_pages [] [] ⟨[], [], ⟨none, none, none⟩⟩ =
      Except.error "No pages to display (no sensors matched any template)"
    ∧ cycle_rebuild [] [] ⟨[], [], ⟨none, none, none⟩⟩ [PageKind.time "x"] 0 =
        [PageKind.time "x"]
    ∧ cycle_rebuild [] [] ⟨[], [], ⟨some "T", none, none⟩⟩ [PageKind.time "x"] 0 =
        [PageKind.time "T"] :=
  ⟨(startup_fatal_rebuild_retains [] [] []
      ⟨[], [], ⟨none, none, none⟩⟩ [PageKind.time "x"]).1 rfl,
   (startup_fatal_rebuild_retains [] [] []
      ⟨[], [], ⟨none, none, none⟩⟩ [PageKind.time "x"]).2.2.1 rfl 0,
   (startup_fatal_rebuild_retains [] [] []
      ⟨[], [], ⟨some "T", none, none⟩⟩ [PageKind.time "x"]).2.2.2.1 (by decide)⟩

/-- Unrolling the sensor loop of the template compiler: the compiled
templates are the sensors whose pattern is present and compiles, the
warnings are the patterns that fail, both in input order. -/
lemma panel_templates_foldl (compile : String → Option Matcher) :
    ∀ (sensors : List Sensor) (acc : List CompiledTemplate × List String),
      sensors.foldl (template_step compile) acc =
        (acc.1 ++ sensors.filterMap fun s =>
            s.match_pattern.bind fun pat =>
              (compile pat).map fun re => CompiledTemplate.mk re s,
         acc.2 ++ sensors.filterMap fun s =>
            s.match_pattern.bind fun pat =>
              match compile pat with
              | some _ => none
              | none => some pat) := by
  intro sensors
  induction sensors with
  | nil => intro acc; simp
  | cons s rest ih =>
      intro acc
      simp only [List.foldl_cons, List.filterMap_cons]
      cases hmp : s.match_pattern with
      | none => simpa [template_step, hmp] using ih acc
      | some pat =>
          cases hc : compile pat with
          | none =>
              simpa [template_step, hmp, hc, List.append_assoc] using
                ih (acc.1, acc.2 ++ [pat])
          | some re =>
              simpa [template_step, hmp, hc, List.append_assoc] using
                ih (acc.1 ++ [CompiledTemplate.mk re s], acc.2)

/-- Unrolling the active-panel loop of the template compiler. -/
lemma cst_foldl (compile : String → Option Matcher) (cfg : MonitorConfig) :
    ∀ (actives : List Nat) (tw : List CompiledTemplate × List String),
      actives.foldl (cst_step compile cfg) (some tw) =
        some (tw.1 ++ (actives.filterMap (panel_at cfg)).flatMap
                (fun p => (panel_templates compile p).1),
              tw.2 ++ (actives.filterMap (panel_at cfg)).flatMap
                (fun p => (panel_templates compile p).2)) := by
  intro actives
  induction actives with
  | nil => intro tw; simp
  | cons a rest ih =>
      intro tw
      simp only [List.foldl_cons, List.filterMap_cons]
      by_cases hv : a = 0 ∨ a > cfg.panels.length
      · simpa [cst_step, panel_at, hv] using ih tw
      · have hlt : a - 1 < cfg.panels.length := by
          push_neg at hv
          omega
        simp only [cst_step, panel_at, if_neg hv, List.get?_eq_get hlt,
          Option.some_bind, Option.map_some']
        rw [ih]
        simp [List.flatMap_cons, List.append_assoc]

/-- The template compiler in closed form: it always succeeds and returns
the per-panel results of the validly indexed panels in configured
order. -/
lemma compile_sensor_templates_eq (compile : String → Option Matcher)
    (cfg : MonitorConfig) :
    compile_sensor_templates compile cfg =
      some ((active_panel_list cfg).flatMap fun p => (panel_templates compile p).1,
            (active_panel_list cfg).flatMap fun p => (panel_templates compile p).2) := by
  unfold compile_sensor_templates active_panel_list
  simpa using cst_foldl compile cfg cfg.active_panels ([], [])

/-- Filtering out the out-of-range indices before selecting panels
selects the same panels (out-of-range indices select none anyway). -/
lemma filterMap_panel_at_filter (cfg : MonitorConfig) :
    ∀ l : List Nat,
      (l.filter fun a => !decide (a = 0 ∨ a > cfg.panels.length)).filterMap
          (panel_at cfg)
        = l.filterMap (panel_at cfg) := by
  intro l
  induction l with
  | nil => rfl
  | cons a rest ih =>
      rw [List.filter_cons]
      by_cases hv : a = 0 ∨ a > cfg.panels.length
      · have hcond : ¬((!decide (a = 0 ∨ a > cfg.panels.length)) = true) := by
          simp [hv]
        rw [if_neg hcond]
        have hnone : panel_at cfg a = none := by simp [panel_at, hv]
        rw [List.filterMap_cons, hnone, ih]
      · have hcond : (!decide (a = 0 ∨ a > cfg.panels.length)) = true := by
          simp [hv]
        rw [if_pos hcond, List.filterMap_cons, List.filterMap_cons]
        cases hpa : panel_at cfg a
        · simp only [ih]
        · simp only [ih]

/-- Restricting the active-panel indices to the in-range ones yields the
same panel selection. -/
lemma active_panel_list_valid (cfg : MonitorConfig) :
    active_panel_list ⟨valid_active_panels cfg, cfg.panels, cfg.setup⟩ =
      active_panel_list cfg := by
  show (valid_active_panels cfg).filterMap
      (panel_at ⟨valid_active_panels cfg, cfg.panels, cfg.setup⟩)
    = active_panel_list cfg
  rw [show panel_at ⟨valid_active_panels cfg, cfg.panels, cfg.setup⟩
        = panel_at cfg from rfl]
  unfold active_panel_list valid_active_panels
  exact filterMap_panel_at_filter cfg cfg.active_panels

/-- C5: template compilation never fails as a whole: over any
configuration and any regex compiler it returns `some` result in which
each template whose pattern fails to compile is omitted and its pattern
is recorded as a warning, templates without a pattern are skipped, and
the remaining compiled templates keep the configured input order. -/
theorem compile_templates_partial_tolerant (compile : String → Option Matcher)
    (cfg : MonitorConfig) (panel : Panel) :
    compile_sensor_templates compile cfg =
      some ((active_panel_list cfg).flatMap fun p => (panel_templates compile p).1,
            (active_panel_list cfg).flatMap fun p => (panel_templates compile p).2)
    ∧ panel_templates compile panel =
      (panel.sensor.filterMap fun s =>
          s.match_pattern.bind fun pat =>
            (compile pat).map fun re => CompiledTemplate.mk re s,
       panel.sensor.filterMap fun s =>
          s.match_pattern.bind fun pat =>
            match compile pat with
            | some _ => none
            | none => some pat) := by
  refine ⟨compile_sensor_templates_eq compile cfg, ?_⟩
  unfold panel_templates
  simpa using panel_templates_foldl compile panel.sensor ([], [])

/-- C10: active-panel indices are 1-based; an index of 0 or greater than
the panel count contributes nothing and is skipped silently, the panel
access `cfg.panels[active - 1]` behind the guard is always in bounds,
and the compiler never panics (always returns `some`). -/
theorem compile_templates_index_safety (compile : String → Option Matcher)
    (cfg : MonitorConfig) :
    (compile_sensor_templates compile cfg).isSome = true
    ∧ compile_sensor_templates compile cfg =
        compile_sensor_templates compile
          ⟨valid_active_panels cfg, cfg.panels, cfg.setup⟩
    ∧ ∀ a ∈ cfg.active_panels, ¬(a = 0 ∨ a > cfg.panels.length) →
        (cfg.panels.get? (a - 1)).isSome = true := by
  refine ⟨by simp [compile_sensor_templates_eq], ?_, ?_⟩
  · rw [compile_sensor_templates_eq, compile_sensor_templates_eq,
      active_panel_list_valid]
  · intro a _ hv
    have hlt : a - 1 < cfg.panels.length := by
      push_neg at hv
      omega
    rw [List.get?_eq_get hlt]
    rfl

/-- Witness for C10: a configuration with one panel and active indices
0, 1 and 2: index 1 passes the guard and its panel access is in
bounds. -/
theorem compile_templates_index_safety_witness :
    (([⟨[]⟩] : List Panel).get? (1 - 1)).isSome = true :=
  (compile_templates_index_safety (fun _ => none)
      ⟨[0, 1, 2], [⟨[]⟩], ⟨none, none, none⟩⟩).2.2 1 (by decide) (by decide)

/-! ### Store lemmas -/

/-- Replacing the value of an existing key makes lookup of that key
return the new value. -/
lemma storeGet_subst_of_any (k v : String) :
    ∀ t : Store, (t.any fun p => decide (p.1 = k)) = true →
      storeGet (t.map fun p => if p.1 = k then (k, v) else p) k = some v := by
  intro t
  induction t with
  | nil => intro h; simp at h
  | cons p rest ih =>
      intro h
      by_cases hp : p.1 = k
      · simp [storeGet, hp]
      · have h' : (rest.any fun p => decide (p.1 = k)) = true := by
          simpa [List.any_cons, hp] using h
        simp [storeGet, hp, ih h']

/-- Appending a new entry for an absent key makes lookup of that key
return its value. -/
lemma storeGet_append_single (k v : String) :
    ∀ t : Store, (t.any fun p => decide (p.1 = k)) = false →
      storeGet (t ++ [(k, v)]) k = some v := by
  intro t
  induction t with
  | nil => intro _; simp [storeGet]
  | cons p rest ih =>
      intro h
      simp only [List.any_cons, Bool.or_eq_false_iff,
        decide_eq_false_iff_not] at h
      simp [storeGet, h.1, ih h.2]

/-- `insertKV` makes lookup of the inserted key return the new value. -/
lemma storeGet_insertKV_self (t : Store) (k v : String) :
    storeGet (insertKV t k v) k = some v := by
  cases hb : (t.any fun p => decide (p.1 = k)) with
  | true =>
      rw [insertKV, if_pos hb]
      exact storeGet_subst_of_any k v t hb
  | false =>
      rw [insertKV, if_neg (by simp [hb])]
      exact storeGet_append_single k v t hb

/-- Value substitution for one key leaves lookup of other keys
unchanged. -/
lemma storeGet_subst_ne (k v k' : String) (hne : k' ≠ k) :
    ∀ t : Store,
      storeGet (t.map fun p => if p.1 = k then (k, v) else p) k' =
        storeGet t k' := by
  intro t
  induction t with
  | nil => rfl
  | cons p rest ih =>
      by_cases hp : p.1 = k
      · have h1 : ¬(k = k') := fun h => hne h.symm
        have h2 : ¬(p.1 = k') := by rw [hp]; exact h1
        simp [storeGet, hp, h1, h2, ih]
      · simp [storeGet, hp, ih]

/-- Appending an entry for a different key leaves lookup unchanged. -/
lemma storeGet_append_ne (k v k' : String) (hne : k' ≠ k) :
    ∀ t : Store, storeGet (t ++ [(k, v)]) k' = storeGet t k' := by
  intro t
  induction t with
  | nil =>
      have h1 : ¬(k = k') := fun h => hne h.symm
      simp [storeGet, h1]
  | cons p rest ih =>
      by_cases hp : p.1 = k'
      · simp [storeGet, hp]
      · simp [storeGet, hp, ih]

/-- `insertKV` leaves lookup of other keys unchanged. -/
lemma storeGet_insertKV_ne (t : Store) (k v k' : String) (hne : k' ≠ k) :
    storeGet (insertKV t k v) k' = storeGet t k' := by
  cases hb : (t.any fun p => decide (p.1 = k)) with
  | true =>
      rw [insertKV, if_pos hb]
      exact storeGet_subst_ne k v k' hne t
  | false =>
      rw [insertKV, if_neg (by simp [hb])]
      exact storeGet_append_ne k v k' hne t

/-- Value substitution for one key leaves the key list unchanged. -/
lemma storeKeys_subst (k v : String) (t : Store) :
    storeKeys (t.map fun p => if p.1 = k then (k, v) else p) = storeKeys t := by
  unfold storeKeys
  rw [List.map_map]
  refine List.map_congr_left fun p _ => ?_
  by_cases hp : p.1 = k
  · simp [Function.comp, hp]
  · simp [Function.comp, hp]

/-- `insertKV` never removes a key. -/
lemma storeKeys_insertKV_mono (t : Store) (k v : String) :
    storeKeys t ⊆ storeKeys (insertKV t k v) := by
  cases hb : (t.any fun p => decide (p.1 = k)) with
  | true =>
      rw [insertKV, if_pos hb, storeKeys_subst]
      exact fun x hx => hx
  | false =>
      rw [insertKV, if_neg (by simp [hb])]
      intro x hx
      unfold storeKeys at hx ⊢
      rw [List.map_append]
      exact List.mem_append_left _ hx

/-- A key with a value is among the store's keys. -/
lemma mem_storeKeys_of_isSome :
    ∀ (t : Store) (k : String),
      (storeGet t k).isSome = true → k ∈ t.map Prod.fst := by
  intro t
  induction t with
  | nil => intro k h; simp [storeGet] at h
  | cons p rest ih =>
      intro k h
      by_cases hp : p.1 = k
      · simp only [List.map_cons, List.mem_cons]
        exact Or.inl hp.symm
      · simp only [storeGet, if_neg hp] at h
        simp only [List.map_cons, List.mem_cons]
        exact Or.inr (ih k h)

/-- A key of the store has a value. -/
lemma storeGet_isSome_of_mem :
    ∀ (t : Store) (k : String), k ∈ storeKeys t → (storeGet t k).isSome = true := by
  intro t
  induction t with
  | nil => intro k h; simp [storeKeys] at h
  | cons p rest ih =>
      intro k h
      by_cases hp : p.1 = k
      · simp [storeGet, hp]
      · have : k ∈ storeKeys rest := by
          simpa [storeKeys, Ne.symm hp] using h
        simp [storeGet, hp, ih k this]

/-- The merge leaves lookup of keys absent from the raw data (or excluded
by the filter) unchanged, overrides kept keys present in the raw data
with the raw value, and never removes a key. -/
lemma storeGet_merge (sensor_filter : Option (List (String → Bool))) (k : String) :
    ∀ (source : List (String × String)) (target : Store),
      (source.map Prod.fst).Nodup →
      storeGet (apply_sensor_values target source sensor_filter) k =
        if store_kept sensor_filter k = true ∧ (storeGet source k).isSome = true
        then storeGet source k else storeGet target k := by
  intro source
  induction source with
  | nil => intro target _; simp [apply_sensor_values, storeGet]
  | cons p rest ih =>
      intro target hnd
      obtain ⟨k₀, v₀⟩ := p
      have hnd' : (rest.map Prod.fst).Nodup := (List.nodup_cons.mp hnd).2
      have hk₀ : k₀ ∉ rest.map Prod.fst := (List.nodup_cons.mp hnd).1
      rw [show apply_sensor_values target ((k₀, v₀) :: rest) sensor_filter =
            apply_sensor_values (merge_step sensor_filter target (k₀, v₀))
              rest sensor_filter from rfl]
      rw [ih _ hnd']
      by_cases hk : k₀ = k
      · subst hk
        have hrest : storeGet rest k₀ = none := by
          cases hsr : storeGet rest k₀ with
          | none => rfl
          | some v =>
              exact absurd
                (mem_storeKeys_of_isSome rest k₀ (by simp [hsr])) hk₀
        rw [hrest]
        simp only [Option.isSome_none, Bool.false_eq_true, and_false, if_false]
        have hsrc : storeGet ((k₀, v₀) :: rest) k₀ = some v₀ := by
          simp [storeGet]
        rw [hsrc]
        cases hf : sensor_filter with
        | none =>
            simp only [store_kept, Option.isSome_some, and_true]
            rw [show merge_step none target (k₀, v₀) = insertKV target k₀ v₀ from rfl]
            rw [storeGet_insertKV_self]
            simp
        | some filter =>
            by_cases hfk : is_filtered k₀ filter = true
            · have : store_kept (some filter) k₀ = false := by
                simp [store_kept, hfk]
              rw [show merge_step (some filter) target (k₀, v₀) = target by
                simp [merge_step, hfk]]
              simp [this]
            · have hkept : store_kept (some filter) k₀ = true := by
                simp [store_kept]
                simpa using hfk
              rw [show merge_step (some filter) target (k₀, v₀) =
                    insertKV target k₀ v₀ by simp [merge_step, hfk]]
              rw [storeGet_insertKV_self]
              simp [hkept]
      · have hsrc : storeGet ((k₀, v₀) :: rest) k = storeGet rest k := by
          simp [storeGet, hk]
        have hstep : storeGet (merge_step sensor_filter target (k₀, v₀)) k =
            storeGet target k := by
          cases sensor_filter with
          | none => exact storeGet_insertKV_ne target k₀ v₀ k (Ne.symm hk)
          | some filter =>
              by_cases hfk : is_filtered k₀ filter = true
              · simp [merge_step, hfk]
              · rw [show merge_step (some filter) target (k₀, v₀) =
                      insertKV target k₀ v₀ by simp [merge_step, hfk]]
                exact storeGet_insertKV_ne target k₀ v₀ k (Ne.symm hk)
        rw [hsrc, hstep]

/-- The merge never removes keys from the store. -/
lemma storeKeys_merge_mono (sensor_filter : Option (List (String → Bool))) :
    ∀ (source : List (String × String)) (target : Store),
      storeKeys target ⊆
        storeKeys (apply_sensor_values target source sensor_filter) := by
  intro source
  induction source with
  | nil => intro target; exact fun x hx => hx
  | cons p rest ih =>
      intro target
      rw [show apply_sensor_values target (p :: rest) sensor_filter =
            apply_sensor_values (merge_step sensor_filter target p)
              rest sensor_filter from rfl]
      refine subset_trans ?_ (ih (merge_step sensor_filter target p))
      cases sensor_filter with
      | none => exact storeKeys_insertKV_mono target p.1 p.2
      | some filter =>
          by_cases hfk : is_filtered p.1 filter = true
          · simp [merge_step, hfk]
          · rw [show merge_step (some filter) target p =
                  insertKV target p.1 p.2 by simp [merge_step, hfk]]
            exact storeKeys_insertKV_mono target p.1 p.2

/-- C7: the merge inserts or replaces exactly the raw entries whose key
passes the exclusion filter, leaves the value of every other key
unchanged, and never deletes a key. -/
theorem merge_frame_effect (target : Store) (source : List (String × String))
    (sensor_filter : Option (List (String → Bool))) (k : String)
    (hnd : (source.map Prod.fst).Nodup) :
    (storeGet (apply_sensor_values target source sensor_filter) k =
      if store_kept sensor_filter k = true ∧ (storeGet source k).isSome = true
      then storeGet source k else storeGet target k)
    ∧ storeKeys target ⊆
        storeKeys (apply_sensor_values target source sensor_filter) :=
  ⟨storeGet_merge sensor_filter k source target hnd,
   storeKeys_merge_mono sensor_filter source target⟩

/-- Witness for C7: merging raw data `{a ↦ 2, flt ↦ 7}` with a filter
excluding `flt` into store `{x ↦ 9}` updates `a`. -/
theorem merge_frame_effect_witness :
    storeGet (apply_sensor_values [("x", "9")] [("a", "2"), ("flt", "7")]
        (some [fun s => decide (s = "flt")])) "a" = some "2" := by
  rw [(merge_frame_effect [("x", "9")] [("a", "2"), ("flt", "7")]
        (some [fun s => decide (s = "flt")]) "a" (by decide)).1]
  decide

/-- A merge with the exclusion filter never changes the value of a
filtered key. -/
lemma storeGet_merge_filtered (filter : List (String → Bool)) (k : String)
    (hf : is_filtered k filter = true) :
    ∀ (source : List (String × String)) (t : Store),
      storeGet (apply_sensor_values t source (some filter)) k = storeGet t k := by
  intro source
  induction source with
  | nil => intro t; rfl
  | cons p rest ih =>
      intro t
      rw [show apply_sensor_values t (p :: rest) (some filter) =
            apply_sensor_values (merge_step (some filter) t p)
              rest (some filter) from rfl]
      rw [ih]
      by_cases hfk : is_filtered p.1 filter = true
      · simp [merge_step, hfk]
      · have hne : k ≠ p.1 := fun h => hfk (h ▸ hf)
        rw [show merge_step (some filter) t p = insertKV t p.1 p.2 by
          simp [merge_step, hfk]]
        exact storeGet_insertKV_ne t p.1 p.2 k hne

/-- Starting from a store where a filtered key is absent, it remains
absent after any sequence of merges. -/
lemma store_after_filtered (filter : List (String → Bool)) (k : String)
    (hf : is_filtered k filter = true) :
    ∀ (seq : List (List (String × String))) (t : Store),
      storeGet t k = none →
      storeGet
        (seq.foldl (fun t raw => apply_sensor_values t raw (some filter)) t)
        k = none := by
  intro seq
  induction seq with
  | nil => intro t h; exact h
  | cons raw rest ih =>
      intro t h
      rw [List.foldl_cons]
      exact ih _ (by rw [storeGet_merge_filtered filter k hf raw t]; exact h)

/-- The sensor keys of the pages of one template's matches are the
matched keys. -/
lemma pages_sensor_keys_map_sensor (ms : List (String × String)) (s : Sensor) :
    pages_sensor_keys (ms.map fun kd => PageKind.sensor ⟨kd.1, kd.2, s⟩) =
      ms.map Prod.fst := by
  induction ms with
  | nil => rfl
  | cons kd rest ih =>
      simp only [List.map_cons, pages_sensor_keys, List.filterMap_cons] at ih ⊢
      rw [ih]

/-- Matched keys come from the scanned key list. -/
lemma template_matches_key_mem {t : CompiledTemplate} {keys matched : List String}
    {kd : String × String} (h : kd ∈ template_matches t keys matched) :
    kd.1 ∈ keys := by
  unfold template_matches at h
  rw [List.mem_filterMap] at h
  obtain ⟨k, hk, hfk⟩ := h
  split at hfk
  · exact absurd hfk (by simp)
  · cases hre : t.regex k with
    | none => rw [hre] at hfk; simp at hfk
    | some caps =>
        rw [hre] at hfk
        simp only [Option.map_some', Option.some_inj] at hfk
        rw [← hfk]
        exact hk

/-- Every sensor key produced by the template loop comes either from the
already accumulated pages or from the scanned key list. -/
lemma build_pages_aux_keys_subset :
    ∀ (ts : List CompiledTemplate) (keys matched : List String)
      (pages : List PageKind),
      ∀ x ∈ pages_sensor_keys (build_pages_aux ts keys matched pages),
        x ∈ pages_sensor_keys pages ∨ x ∈ keys := by
  intro ts
  induction ts with
  | nil => intro keys matched pages x hx; exact Or.inl hx
  | cons t ts ih =>
      intro keys matched pages x hx
      rw [show build_pages_aux (t :: ts) keys matched pages =
            build_pages_aux ts keys
              (matched ++ (template_matches t keys matched).map Prod.fst)
              (pages ++ (template_matches t keys matched).map
                fun kd => PageKind.sensor ⟨kd.1, kd.2, t.sensor⟩) from rfl] at hx
      rcases ih _ _ _ x hx with hpages | hkeys
      · unfold pages_sensor_keys at hpages
        rw [List.filterMap_append] at hpages
        rcases List.mem_append.mp hpages with h | h
        · exact Or.inl h
        · right
          rw [show List.filterMap _ ((template_matches t keys matched).map
                fun kd => PageKind.sensor ⟨kd.1, kd.2, t.sensor⟩) =
              pages_sensor_keys ((template_matches t keys matched).map
                fun kd => PageKind.sensor ⟨kd.1, kd.2, t.sensor⟩) from rfl,
            pages_sensor_keys_map_sensor] at h
          rw [List.mem_map] at h
          obtain ⟨kd, hkd, hx1⟩ := h
          exact hx1 ▸ template_matches_key_mem hkd
      · exact Or.inr hkeys

/-- The time page contributes no sensor keys. -/
lemma pages_sensor_keys_time (cfg : MonitorConfig) :
    pages_sensor_keys (time_page_list cfg) = [] := by
  unfold time_page_list pages_sensor_keys
  cases cfg.setup.time_page <;> rfl

/-- Every sensor key of a built page is a key of the snapshot. -/
lemma build_pages_keys_subset (templates : List CompiledTemplate)
    (store : Store) (cfg : MonitorConfig) :
    ∀ x ∈ pages_sensor_keys (build_pages templates store cfg),
      x ∈ storeKeys store := by
  intro x hx
  unfold build_pages at hx
  unfold pages_sensor_keys at hx
  rw [List.filterMap_append] at hx
  rcases List.mem_append.mp hx with h | h
  · rcases build_pages_aux_keys_subset templates _ [] [] x h with h0 | hkeys
    · simp [pages_sensor_keys] at h0
    · unfold sorted_sensor_keys at hkeys
      exact (List.perm_insertionSort _ _).mem_iff.mp hkeys
  · rw [show List.filterMap _ (time_page_list cfg) =
        pages_sensor_keys (time_page_list cfg) from rfl,
      pages_sensor_keys_time] at h
    simp at h

/-- C8: starting from the empty store, a key matching an exclusion
filter is never present after any sequence of merges, and hence never
appears in the sensor pages built from any such snapshot. -/
theorem filtered_keys_never_stored (filter : List (String → Bool))
    (seq : List (List (String × String))) (k : String)
    (hf : is_filtered k filter = true) :
    storeGet (store_after filter seq) k = none
    ∧ k ∉ storeKeys (store_after filter seq)
    ∧ ∀ templates cfg,
        k ∉ pages_sensor_keys (build_pages templates (store_after filter seq) cfg) := by
  have h1 : storeGet (store_after filter seq) k = none :=
    store_after_filtered filter k hf seq [] rfl
  have h2 : k ∉ storeKeys (store_after filter seq) := by
    intro hmem
    have := storeGet_isSome_of_mem _ k hmem
    rw [h1] at this
    simp at this
  refine ⟨h1, h2, fun templates cfg hmem => ?_⟩
  exact h2 (build_pages_keys_subset templates _ cfg k hmem)

/-- Witness for C8: the filtered key `bad` is absent after merging raw
data that contains it. -/
theorem filtered_keys_never_stored_witness :
    storeGet (store_after [fun s => decide (s = "bad")]
        [[("bad", "1"), ("good", "2")]]) "bad" = none :=
  (filtered_keys_never_stored [fun s => decide (s = "bad")]
      [[("bad", "1"), ("good", "2")]] "bad" (by decide)).1

/-! ### Sensor file writer lemmas -/

/-- Running the write/flush/persist tail of the trace from any state:
the destination keeps its old content at every intermediate step and
receives the temp content extended by all lines at the final persist. -/
lemma destObs_tail (out_file : String) (lines : List String) :
    ∀ s : FsState,
      (List.scanl fsStep s
          (lines.map FsOp.writeTempLine
            ++ [FsOp.flushTemp, FsOp.persistTempTo out_file])).map FsState.dest
        = List.replicate (lines.length + 2) s.dest ++ [s.temp ++ lines] := by
  induction lines with
  | nil =>
      intro s
      simp [List.scanl_cons, List.scanl_nil, fsStep, List.replicate_succ]
  | cons l ls ih =>
      intro s
      rw [List.map_cons, List.cons_append, List.scanl_cons]
      rw [show fsStep s (FsOp.writeTempLine l) =
            ⟨s.temp ++ [l], s.dest⟩ from rfl]
      simp only [List.map_append, List.map_cons, List.map_nil]
      rw [show (List.scanl fsStep ⟨s.temp ++ [l], s.dest⟩
            (List.map FsOp.writeTempLine ls
              ++ [FsOp.flushTemp, FsOp.persistTempTo out_file])).map FsState.dest
          = List.replicate (ls.length + 2) s.dest ++ [(s.temp ++ [l]) ++ ls] by
        simpa using ih ⟨s.temp ++ [l], s.dest⟩]
      simp [List.replicate_succ, List.append_assoc]

/-- C9: writing a sensor mapping emits exactly the trace: create the
uniquely named temp file (inside the given temp dir when present) with
world-readable mode `0o664`, write one `label: value` line per entry,
flush, then atomically persist over the destination; along that trace
the destination is only ever observed with its prior content or the
complete final content (never partially written), and it ends with the
complete content. A destination that is a directory aborts instead. -/
theorem write_sensor_file_atomic (out_file : String) (temp_dir : Option String)
    (sensors : List (String × String)) (init : FsState) :
    write_sensor_file true out_file temp_dir sensors = none
    ∧ write_sensor_file false out_file temp_dir sensors =
        some ((match temp_dir with
               | some p => [FsOp.createDirAll p, FsOp.createTemp (some p) 436]
               | none => [FsOp.createTemp none 436])
          ++ sensors.map (fun lv => FsOp.writeTempLine (lv.1 ++ ": " ++ lv.2))
          ++ [FsOp.flushTemp, FsOp.persistTempTo out_file])
    ∧ ∀ ops, write_sensor_file false out_file temp_dir sensors = some ops →
        (∀ d ∈ destObservations init ops,
            d = init.dest ∨ d = sensor_lines sensors)
        ∧ (destObservations init ops).getLast? = some (sensor_lines sensors) := by
  refine ⟨rfl, rfl, fun ops hops => ?_⟩
  have hlines : (sensors.map fun lv => FsOp.writeTempLine (lv.1 ++ ": " ++ lv.2))
      = (sensor_lines sensors).map FsOp.writeTempLine := by
    unfold sensor_lines
    rw [List.map_map]
    rfl
  cases temp_dir with
  | none =>
      have hops' : ops = [FsOp.createTemp none 436]
          ++ sensors.map (fun lv => FsOp.writeTempLine (lv.1 ++ ": " ++ lv.2))
          ++ [FsOp.flushTemp, FsOp.persistTempTo out_file] := by
        have h := hops
        rw [show write_sensor_file false out_file none sensors =
            some ([FsOp.createTemp none 436]
              ++ sensors.map (fun lv => FsOp.writeTempLine (lv.1 ++ ": " ++ lv.2))
              ++ [FsOp.flushTemp, FsOp.persistTempTo out_file]) from rfl] at h
        exact (Option.some_inj.mp h).symm
      subst hops'
      have hobs : destObservations init
          ([FsOp.createTemp none 436]
            ++ sensors.map (fun lv => FsOp.writeTempLine (lv.1 ++ ": " ++ lv.2))
            ++ [FsOp.flushTemp, FsOp.persistTempTo out_file])
          = [init.dest]
            ++ (List.replicate (sensors.length + 2) init.dest
                ++ [sensor_lines sensors]) := by
        unfold destObservations
        rw [show ([FsOp.createTemp none 436]
              ++ sensors.map (fun lv => FsOp.writeTempLine (lv.1 ++ ": " ++ lv.2))
              ++ [FsOp.flushTemp, FsOp.persistTempTo out_file])
            = FsOp.createTemp none 436 ::
              (sensors.map (fun lv => FsOp.writeTempLine (lv.1 ++ ": " ++ lv.2))
                ++ [FsOp.flushTemp, FsOp.persistTempTo out_file]) from rfl]
        rw [List.scanl_cons]
        simp only [List.map_append]
        rw [show fsStep init (FsOp.createTemp none 436) =
              ⟨[], init.dest⟩ from rfl]
        rw [hlines, destObs_tail out_file (sensor_lines sensors) ⟨[], init.dest⟩]
        simp [sensor_lines]
      rw [hobs]
      constructor
      · intro d hd
        rcases List.mem_append.mp hd with h | h
        · exact Or.inl (by simpa using h)
        · rcases List.mem_append.mp h with h | h
          · exact Or.inl (List.mem_replicate.mp h).2
          · exact Or.inr (by simpa using h)
      · rw [List.getLast?_append, List.getLast?_append]
        simp
  | some p =>
      have hops' : ops = [FsOp.createDirAll p, FsOp.createTemp (some p) 436]
          ++ sensors.map (fun lv => FsOp.writeTempLine (lv.1 ++ ": " ++ lv.2))
          ++ [FsOp.flushTemp, FsOp.persistTempTo out_file] := by
        have h := hops
        rw [show write_sensor_file false out_file (some p) sensors =
            some ([FsOp.createDirAll p, FsOp.createTemp (some p) 436]
              ++ sensors.map (fun lv => FsOp.writeTempLine (lv.1 ++ ": " ++ lv.2))
              ++ [FsOp.flushTemp, FsOp.persistTempTo out_file]) from rfl] at h
        exact (Option.some_inj.mp h).symm
      subst hops'
      have hobs : destObservations init
          ([FsOp.createDirAll p, FsOp.createTemp (some p) 436]
            ++ sensors.map (fun lv => FsOp.writeTempLine (lv.1 ++ ": " ++ lv.2))
            ++ [FsOp.flushTemp, FsOp.persistTempTo out_file])
          = [init.dest, init.dest]
            ++ (List.replicate (sensors.length + 2) init.dest
                ++ [sensor_lines sensors]) := by
        unfold destObservations
        rw [show ([FsOp.createDirAll p, FsOp.createTemp (some p) 436]
              ++ sensors.map (fun lv => FsOp.writeTempLine (lv.1 ++ ": " ++ lv.2))
              ++ [FsOp.flushTemp, FsOp.persistTempTo out_file])
            = FsOp.createDirAll p :: FsOp.createTemp (some p) 436 ::
              (sensors.map (fun lv => FsOp.writeTempLine (lv.1 ++ ": " ++ lv.2))
                ++ [FsOp.flushTemp, FsOp.persistTempTo out_file]) from rfl]
        rw [List.scanl_cons, List.scanl_cons]
        simp only [List.map_append]
        rw [show fsStep (fsStep init (FsOp.createDirAll p))
              (FsOp.createTemp (some p) 436) = ⟨[], init.dest⟩ from rfl]
        rw [hlines, destObs_tail out_file (sensor_lines sensors) ⟨[], init.dest⟩]
        simp [sensor_lines, fsStep]
      rw [hobs]
      constructor
      · intro d hd
        rcases List.mem_append.mp hd with h | h
        · exact Or.inl (by simpa using h)
        · rcases List.mem_append.mp h with h | h
          · exact Or.inl (List.mem_replicate.mp h).2
          · exact Or.inr (by simpa using h)
      · rw [List.getLast?_append, List.getLast?_append]
        simp

/-- Witness for C9: a concrete two-entry mapping written to `out`. -/
theorem write_sensor_file_atomic_witness :
    (destObservations ⟨["junk"], ["old"]⟩
        ((write_sensor_file false "out" none
            [("cpu", "41"), ("mem", "7")]).getD [])).getLast?
      = some (sensor_lines [("cpu", "41"), ("mem", "7")]) :=
  ((write_sensor_file_atomic "out" none [("cpu", "41"), ("mem", "7")]
      ⟨["junk"], ["old"]⟩).2.2 _ rfl).2

/-! ### Page building normal form -/

/-- Skipping claimed keys during the scan equals scanning the pool with
the claimed keys filtered out beforehand. -/
lemma tm_filter (t : CompiledTemplate) :
    ∀ (keys matched : List String),
      template_matches t keys matched =
        tmatches t (keys.filter fun k => decide (k ∉ matched)) := by
  intro keys matched
  induction keys with
  | nil => rfl
  | cons k rest ih =>
      simp only [template_matches, tmatches] at ih ⊢
      rw [List.filterMap_cons, List.filter_cons]
      by_cases hm : k ∈ matched
      · rw [if_pos hm, if_neg (by simp [hm])]
        exact ih
      · rw [if_neg hm, if_pos (by simp [hm]), List.filterMap_cons]
        cases t.regex k with
        | none => exact ih
        | some caps => exact congrArg (List.cons _) ih

/-- A matched pair's key is in the scanned pool and its regex matched. -/
lemma tmatches_mem {t : CompiledTemplate} {pool : List String}
    {kd : String × String} (h : kd ∈ tmatches t pool) :
    kd.1 ∈ pool ∧ ∃ caps, t.regex kd.1 = some caps ∧
      kd.2 = expand_template_name t.sensor caps := by
  unfold tmatches at h
  rw [List.mem_filterMap] at h
  obtain ⟨k, hk, hfk⟩ := h
  cases hre : t.regex k with
  | none => rw [hre] at hfk; simp at hfk
  | some caps =>
      rw [hre] at hfk
      simp only [Option.map_some', Option.some_inj] at hfk
      rw [← hfk]
      exact ⟨hk, caps, hre, rfl⟩

/-- Membership in one template's matched keys is exactly: unclaimed,
scanned and matched by the regex. -/
lemma mem_template_matches_keys {t : CompiledTemplate} {keys matched : List String}
    {k : String} (hk : k ∈ keys) (hm : k ∉ matched) :
    (k ∈ (template_matches t keys matched).map Prod.fst ↔
      (t.regex k).isSome = true) := by
  constructor
  · intro h
    rw [List.mem_map] at h
    obtain ⟨kd, hkd, hk1⟩ := h
    rw [tm_filter] at hkd
    obtain ⟨-, caps, hcaps, -⟩ := tmatches_mem hkd
    rw [hk1] at hcaps
    rw [hcaps]
    rfl
  · intro h
    obtain ⟨caps, hcaps⟩ := Option.isSome_iff_exists.mp h
    rw [List.mem_map]
    refine ⟨(k, expand_template_name t.sensor caps), ?_, rfl⟩
    unfold template_matches
    rw [List.mem_filterMap]
    refine ⟨k, hk, ?_⟩
    rw [if_neg hm, hcaps]
    rfl

/-- Claiming one template's matches shrinks the pool exactly to the keys
its regex does not match. -/
lemma pool_step (t : CompiledTemplate) (keys matched : List String) :
    (keys.filter fun k =>
        decide (k ∉ matched ++ (template_matches t keys matched).map Prod.fst))
      = ((keys.filter fun k => decide (k ∉ matched)).filter
          fun k => (t.regex k).isNone) := by
  rw [List.filter_filter]
  refine List.filter_congr fun k hk => ?_
  by_cases hm : k ∈ matched
  · simp [hm]
  · cases hre : t.regex k with
    | some caps =>
        have hmem : k ∈ (template_matches t keys matched).map Prod.fst :=
          (mem_template_matches_keys hk hm).mpr (by rw [hre]; rfl)
        simp [hm, hmem, hre]
    | none =>
        have hmem : k ∉ (template_matches t keys matched).map Prod.fst := by
          intro h
          have := (mem_template_matches_keys hk hm).mp h
          rw [hre] at this
          simp at this
        simp [hm, hmem, hre]

/-- The template loop in chunk normal form: the accumulated pages
followed by one chunk per template, each scanning the progressively
shrinking pool. -/
lemma build_pages_aux_eq_chunks :
    ∀ (ts : List CompiledTemplate) (keys matched : List String)
      (pages : List PageKind),
      build_pages_aux ts keys matched pages =
        pages ++
          (build_chunks ts (keys.filter fun k => decide (k ∉ matched))).flatten := by
  intro ts
  induction ts with
  | nil => intro keys matched pages; simp [build_pages_aux, build_chunks]
  | cons t ts ih =>
      intro keys matched pages
      rw [show build_pages_aux (t :: ts) keys matched pages =
            build_pages_aux ts keys
              (matched ++ (template_matches t keys matched).map Prod.fst)
              (pages ++ (template_matches t keys matched).map
                fun kd => PageKind.sensor ⟨kd.1, kd.2, t.sensor⟩) from rfl]
      rw [ih, pool_step]
      rw [show build_chunks (t :: ts) (keys.filter fun k => decide (k ∉ matched)) =
            tpages t (keys.filter fun k => decide (k ∉ matched)) ::
              build_chunks ts ((keys.filter fun k => decide (k ∉ matched)).filter
                fun k => (t.regex k).isNone) from rfl]
      rw [List.flatten_cons]
      rw [show (template_matches t keys matched).map
            (fun kd => PageKind.sensor ⟨kd.1, kd.2, t.sensor⟩)
          = tpages t (keys.filter fun k => decide (k ∉ matched)) by
        rw [tm_filter]; rfl]
      rw [List.append_assoc]

/-- An empty claimed set filters out nothing. -/
lemma filter_not_contains_nil (keys : List String) :
    (keys.filter fun k => decide (k ∉ ([] : List String))) = keys := by
  induction keys with
  | nil => rfl
  | cons k rest ih => simp [List.filter_cons, ih]

/-- `build_pages` in chunk normal form. -/
lemma build_pages_chunks (templates : List CompiledTemplate) (store : Store)
    (cfg : MonitorConfig) :
    build_pages templates store cfg =
      (build_chunks templates (sorted_sensor_keys store)).flatten
        ++ time_page_list cfg := by
  unfold build_pages
  rw [build_pages_aux_eq_chunks, filter_not_contains_nil, List.nil_append]

/-- The keys matched by one template are the pool keys its regex
matches, in pool order. -/
lemma tmatches_map_fst (t : CompiledTemplate) :
    ∀ pool : List String,
      (tmatches t pool).map Prod.fst =
        pool.filter fun k => (t.regex k).isSome := by
  intro pool
  induction pool with
  | nil => rfl
  | cons k rest ih =>
      unfold tmatches
      rw [List.filterMap_cons, List.filter_cons]
      cases t.regex k with
      | none => exact ih
      | some caps => exact congrArg (List.cons k) ih

/-- The sensor keys of one chunk, as a filter of the pool. -/
lemma pages_sensor_keys_tpages (t : CompiledTemplate) (pool : List String) :
    pages_sensor_keys (tpages t pool) =
      pool.filter fun k => (t.regex k).isSome := by
  unfold tpages
  rw [pages_sensor_keys_map_sensor, tmatches_map_fst]

/-- `pages_sensor_keys` distributes over append. -/
lemma psk_append (l₁ l₂ : List PageKind) :
    pages_sensor_keys (l₁ ++ l₂) =
      pages_sensor_keys l₁ ++ pages_sensor_keys l₂ :=
  List.filterMap_append l₁ l₂ _

/-- Every sensor key of the chunks comes from the pool. -/
lemma chunks_keys_subset :
    ∀ (ts : List CompiledTemplate) (pool : List String),
      ∀ x ∈ pages_sensor_keys ((build_chunks ts pool).flatten), x ∈ pool := by
  intro ts
  induction ts with
  | nil => intro pool x hx; simp [build_chunks, pages_sensor_keys] at hx
  | cons t ts ih =>
      intro pool x hx
      rw [show build_chunks (t :: ts) pool = tpages t pool ::
            build_chunks ts (pool.filter fun k => (t.regex k).isNone) from rfl,
        List.flatten_cons, psk_append] at hx
      rcases List.mem_append.mp hx with h | h
      · rw [pages_sensor_keys_tpages] at h
        exact List.mem_of_mem_filter h
      · exact List.mem_of_mem_filter (ih _ x h)

/-- On a duplicate-free pool the chunks produce each key at most once. -/
lemma chunks_keys_nodup :
    ∀ (ts : List CompiledTemplate) (pool : List String), pool.Nodup →
      (pages_sensor_keys ((build_chunks ts pool).flatten)).Nodup := by
  intro ts
  induction ts with
  | nil => intro pool _; simp [build_chunks, pages_sensor_keys]
  | cons t ts ih =>
      intro pool h
      rw [show build_chunks (t :: ts) pool = tpages t pool ::
            build_chunks ts (pool.filter fun k => (t.regex k).isNone) from rfl,
        List.flatten_cons, psk_append, List.nodup_append]
      refine ⟨?_, ih _ (h.filter _), ?_⟩
      · rw [pages_sensor_keys_tpages]
        exact h.filter _
      · intro a ha hb
        rw [pages_sensor_keys_tpages] at ha
        have hsome := (List.mem_filter.mp ha).2
        have hnone := (List.mem_filter.mp (chunks_keys_subset ts _ a hb)).2
        rw [Option.isNone_iff_eq_none] at hnone
        rw [hnone] at hsome
        simp at hsome

/-- On a sorted pool every chunk's key list is sorted. -/
lemma chunks_sorted :
    ∀ (ts : List CompiledTemplate) (pool : List String),
      pool.Sorted (· < ·) →
      ∀ c ∈ build_chunks ts pool, (pages_sensor_keys c).Sorted (· < ·) := by
  intro ts
  induction ts with
  | nil => intro pool _ c hc; simp [build_chunks] at hc
  | cons t ts ih =>
      intro pool hs c hc
      rw [show build_chunks (t :: ts) pool = tpages t pool ::
            build_chunks ts (pool.filter fun k => (t.regex k).isNone) from rfl]
        at hc
      rcases List.mem_cons.mp hc with rfl | h
      · rw [pages_sensor_keys_tpages]
        exact List.Pairwise.sublist (List.filter_sublist _) hs
      · exact ih _ (List.Pairwise.sublist (List.filter_sublist _) hs) c h

/-- Chunks contain only sensor pages (never the time page). -/
lemma chunks_pages_sensor :
    ∀ (ts : List CompiledTemplate) (pool : List String),
      ∀ c ∈ build_chunks ts pool, ∀ p ∈ c, ∃ sp, p = PageKind.sensor sp := by
  intro ts
  induction ts with
  | nil => intro pool c hc; simp [build_chunks] at hc
  | cons t ts ih =>
      intro pool c hc p hp
      rw [show build_chunks (t :: ts) pool = tpages t pool ::
            build_chunks ts (pool.filter fun k => (t.regex k).isNone) from rfl]
        at hc
      rcases List.mem_cons.mp hc with rfl | h
      · unfold tpages at hp
        rw [List.mem_map] at hp
        obtain ⟨kd, -, rfl⟩ := hp
        exact ⟨_, rfl⟩
      · exact ih _ c h p hp

/-- `pages_with_key` distributes over append. -/
lemma pwk_append (k : String) (l₁ l₂ : List PageKind) :
    pages_with_key k (l₁ ++ l₂) =
      pages_with_key k l₁ ++ pages_with_key k l₂ :=
  List.filter_append l₁ l₂

/-- The time page is never a page for a sensor key. -/
lemma pwk_time (k : String) (cfg : MonitorConfig) :
    pages_with_key k (time_page_list cfg) = [] := by
  unfold time_page_list pages_with_key
  cases cfg.setup.time_page <;> rfl

/-- A template whose regex does not match the key contributes no page
for it. -/
lemma pwk_tpages_of_none {t : CompiledTemplate} {k : String}
    (h : t.regex k = none) (pool : List String) :
    pages_with_key k (tpages t pool) = [] := by
  unfold pages_with_key
  rw [List.filter_eq_nil_iff]
  intro p hp
  unfold tpages at hp
  rw [List.mem_map] at hp
  obtain ⟨kd, hkd, rfl⟩ := hp
  obtain ⟨-, caps, hcaps, -⟩ := tmatches_mem hkd
  intro hpred
  simp only [decide_eq_true_eq] at hpred
  rw [hpred] at hcaps
  rw [h] at hcaps
  exact Option.noConfusion hcaps

/-- A key outside the pool gets no page from the pool's chunk. -/
lemma pwk_tpages_not_mem {k : String} {pool : List String}
    (h : k ∉ pool) (t : CompiledTemplate) :
    pages_with_key k (tpages t pool) = [] := by
  unfold pages_with_key
  rw [List.filter_eq_nil_iff]
  intro p hp
  unfold tpages at hp
  rw [List.mem_map] at hp
  obtain ⟨kd, hkd, rfl⟩ := hp
  obtain ⟨hkmem, -, -, -⟩ := tmatches_mem hkd
  intro hpred
  simp only [decide_eq_true_eq] at hpred
  rw [hpred] at hkmem
  exact h hkmem

/-- On a duplicate-free pool a matching template produces exactly one
page for a pool key. -/
lemma pwk_tpages_singleton {t : CompiledTemplate} {k : String} {caps : Caps}
    (hcaps : t.regex k = some caps) :
    ∀ pool : List String, pool.Nodup → k ∈ pool →
      pages_with_key k (tpages t pool) =
        [PageKind.sensor ⟨k, expand_template_name t.sensor caps, t.sensor⟩] := by
  intro pool
  induction pool with
  | nil => intro _ hk; simp at hk
  | cons k₀ rest ih =>
      intro hnd hk
      by_cases hkk : k₀ = k
      · subst hkk
        rw [show tpages t (k₀ :: rest) =
              PageKind.sensor ⟨k₀, expand_template_name t.sensor caps,
                t.sensor⟩ :: tpages t rest by
            unfold tpages tmatches
            rw [List.filterMap_cons, hcaps]
            rfl]
        unfold pages_with_key
        rw [List.filter_cons, if_pos (by simp)]
        have hrest : pages_with_key k₀ (tpages t rest) = [] :=
          pwk_tpages_not_mem (List.nodup_cons.mp hnd).1 t
        unfold pages_with_key at hrest
        rw [hrest]
      · have hk' : k ∈ rest := by
          rcases List.mem_cons.mp hk with h | h
          · exact absurd h.symm hkk
          · exact h
        have ihr := ih (List.nodup_cons.mp hnd).2 hk'
        cases hre : t.regex k₀ with
        | none =>
            rw [show tpages t (k₀ :: rest) = tpages t rest by
              unfold tpages tmatches
              rw [List.filterMap_cons, hre]
              rfl]
            exact ihr
        | some caps₀ =>
            rw [show tpages t (k₀ :: rest) =
                  PageKind.sensor ⟨k₀, expand_template_name t.sensor caps₀,
                    t.sensor⟩ :: tpages t rest by
                unfold tpages tmatches
                rw [List.filterMap_cons, hre]
                rfl]
            unfold pages_with_key
            rw [List.filter_cons, if_neg (by simp [hkk])]
            exact ihr

/-- A key outside the pool gets no page from any chunk. -/
lemma pwk_flatten_not_mem :
    ∀ (ts : List CompiledTemplate) (pool : List String) (k : String),
      k ∉ pool →
      pages_with_key k ((build_chunks ts pool).flatten) = [] := by
  intro ts
  induction ts with
  | nil => intro pool k _; rfl
  | cons t ts ih =>
      intro pool k hk
      rw [show build_chunks (t :: ts) pool = tpages t pool ::
            build_chunks ts (pool.filter fun k => (t.regex k).isNone) from rfl,
        List.flatten_cons, pwk_append, pwk_tpages_not_mem hk t,
        ih _ k (fun hmem => hk (List.mem_of_mem_filter hmem))]
      rfl

/-- C1 support: a key no template matches gets no page. -/
lemma pwk_flatten_no_match :
    ∀ (ts : List CompiledTemplate) (pool : List String) (k : String),
      first_match ts k = none →
      pages_with_key k ((build_chunks ts pool).flatten) = [] := by
  intro ts
  induction ts with
  | nil => intro pool k _; rfl
  | cons t ts ih =>
      intro pool k h
      unfold first_match at h
      rw [List.find?_eq_none] at h
      have ht : t.regex k = none := by
        have hcond := h t (List.mem_cons_self t ts)
        cases hre : t.regex k with
        | none => rfl
        | some _ => rw [hre] at hcond; exact absurd rfl hcond
      rw [show build_chunks (t :: ts) pool = tpages t pool ::
            build_chunks ts (pool.filter fun k => (t.regex k).isNone) from rfl,
        List.flatten_cons, pwk_append, pwk_tpages_of_none ht,
        ih _ k (by
          unfold first_match
          rw [List.find?_eq_none]
          exact fun x hx => h x (List.mem_cons_of_mem t hx))]
      rfl

/-- C1 support: on a duplicate-free pool, a pool key matched by some
template gets exactly the page of the first matching template. -/
lemma pwk_flatten_first_match :
    ∀ (ts : List CompiledTemplate) (pool : List String) (k : String)
      (t' : CompiledTemplate),
      pool.Nodup → k ∈ pool → first_match ts k = some t' →
      ∃ caps, t'.regex k = some caps ∧
        pages_with_key k ((build_chunks ts pool).flatten) =
          [PageKind.sensor ⟨k, expand_template_name t'.sensor caps,
            t'.sensor⟩] := by
  intro ts
  induction ts with
  | nil => intro pool k t' _ _ h; simp [first_match] at h
  | cons t ts ih =>
      intro pool k t' hnd hk h
      cases hre : t.regex k with
      | some caps =>
          have hfm : first_match (t :: ts) k = some t := by
            unfold first_match
            exact List.find?_cons_of_pos _ (by rw [hre]; rfl)
          have ht' : t' = t := by
            rw [hfm] at h
            exact (Option.some_inj.mp h).symm
          subst ht'
          refine ⟨caps, hre, ?_⟩
          rw [show build_chunks (t' :: ts) pool = tpages t' pool ::
                build_chunks ts (pool.filter fun k => (t'.regex k).isNone)
                from rfl,
            List.flatten_cons, pwk_append,
            pwk_tpages_singleton hre pool hnd hk,
            pwk_flatten_not_mem ts _ k (fun hmem => by
              have hnone := (List.mem_filter.mp hmem).2
              rw [hre] at hnone
              simp at hnone)]
          rfl
      | none =>
          have hfm : first_match (t :: ts) k = first_match ts k := by
            unfold first_match
            exact List.find?_cons_of_neg _ (by rw [hre]; simp)
          rw [hfm] at h
          obtain ⟨caps, hcaps, hpwk⟩ :=
            ih (pool.filter fun k => (t.regex k).isNone) k t' (hnd.filter _)
              (List.mem_filter.mpr ⟨hk, by rw [hre]; rfl⟩) h
          refine ⟨caps, hcaps, ?_⟩
          rw [show build_chunks (t :: ts) pool = tpages t pool ::
                build_chunks ts (pool.filter fun k => (t.regex k).isNone)
                from rfl,
            List.flatten_cons, pwk_append, pwk_tpages_of_none hre, hpwk]
          rfl

/-- Sorting the snapshot keys is a permutation of them. -/
lemma sorted_sensor_keys_perm (store : Store) :
    (sorted_sensor_keys store).Perm (storeKeys store) :=
  List.perm_insertionSort _ _

/-- The sorted snapshot keys are sorted (weakly). -/
lemma sorted_sensor_keys_sorted_le (store : Store) :
    (sorted_sensor_keys store).Sorted (· ≤ ·) :=
  List.sorted_insertionSort _ _

/-- With duplicate-free snapshot keys the sorted key list is
duplicate-free. -/
lemma sorted_sensor_keys_nodup {store : Store}
    (h : (storeKeys store).Nodup) : (sorted_sensor_keys store).Nodup :=
  ((sorted_sensor_keys_perm store).nodup_iff).mpr h

/-- With duplicate-free snapshot keys the sorted key list is strictly
sorted. -/
lemma sorted_sensor_keys_sorted_lt {store : Store}
    (h : (storeKeys store).Nodup) :
    (sorted_sensor_keys store).Sorted (· < ·) :=
  ((sorted_sensor_keys_sorted_le store).and
    (sorted_sensor_keys_nodup h)).imp fun hab =>
      lt_of_le_of_ne hab.1 hab.2

/-- Snapshots with the same key sets (in any order) sort to the same key
list. -/
lemma sorted_sensor_keys_eq_of_perm {s₁ s₂ : Store}
    (h : (storeKeys s₁).Perm (storeKeys s₂)) :
    sorted_sensor_keys s₁ = sorted_sensor_keys s₂ :=
  List.eq_of_perm_of_sorted
    ((sorted_sensor_keys_perm s₁).trans
      (h.trans (sorted_sensor_keys_perm s₂).symm))
    (sorted_sensor_keys_sorted_le s₁) (sorted_sensor_keys_sorted_le s₂)

/-- C1: over a snapshot with duplicate-free keys, each sensor key
appears in at most one sensor page of a build; a key matched by no
template gets no page, and a key matched by some template gets exactly
one page, produced by the first matching template in configured order
(first-match-wins: a later template never reclaims the key). -/
theorem build_pages_first_match_wins (templates : List CompiledTemplate)
    (store : Store) (cfg : MonitorConfig)
    (hnd : (storeKeys store).Nodup) :
    (pages_sensor_keys (build_pages templates store cfg)).Nodup
    ∧ ∀ k ∈ storeKeys store,
        (first_match templates k = none →
          pages_with_key k (build_pages templates store cfg) = [])
        ∧ ∀ t, first_match templates k = some t →
            ∃ caps, t.regex k = some caps ∧
              pages_with_key k (build_pages templates store cfg) =
                [PageKind.sensor ⟨k, expand_template_name t.sensor caps,
                  t.sensor⟩] := by
  constructor
  · rw [build_pages_chunks, psk_append, pages_sensor_keys_time,
      List.append_nil]
    exact chunks_keys_nodup templates _ (sorted_sensor_keys_nodup hnd)
  · intro k hk
    have hk' : k ∈ sorted_sensor_keys store :=
      (sorted_sensor_keys_perm store).mem_iff.mpr hk
    constructor
    · intro hnonematch
      rw [build_pages_chunks, pwk_append, pwk_time, List.append_nil]
      exact pwk_flatten_no_match templates _ k hnonematch
    · intro t hfm
      obtain ⟨caps, hcaps, hpwk⟩ :=
        pwk_flatten_first_match templates (sorted_sensor_keys store) k t
          (sorted_sensor_keys_nodup hnd) hk' hfm
      refine ⟨caps, hcaps, ?_⟩
      rw [build_pages_chunks, pwk_append, pwk_time, List.append_nil, hpwk]

/-- Witness for C1: two templates, where the second also matches the
key `shared` already claimed by the first: `shared` gets exactly the
first template's page. -/
theorem build_pages_first_match_wins_witness :
    ∃ caps,
      (CompiledTemplate.mk
          (fun s => if s = "cpu_a" ∨ s = "shared"
            then some (fun _ => none) else none)
          ⟨some "p1", some "N1", none⟩).regex "shared" = some caps ∧
      pages_with_key "shared"
          (build_pages
            [⟨fun s => if s = "cpu_a" ∨ s = "shared"
                then some (fun _ => none) else none,
              ⟨some "p1", some "N1", none⟩⟩,
             ⟨fun s => if s = "shared" ∨ s = "mem"
                then some (fun _ => none) else none,
              ⟨some "p2", some "N2", none⟩⟩]
            [("shared", "1"), ("cpu_a", "2"), ("mem", "3")]
            ⟨[], [], ⟨none, none, none⟩⟩) =
        [PageKind.sensor ⟨"shared",
          expand_template_name ⟨some "p1", some "N1", none⟩ caps,
          ⟨some "p1", some "N1", none⟩⟩] :=
  ((build_pages_first_match_wins
      [⟨fun s => if s = "cpu_a" ∨ s = "shared"
          then some (fun _ => none) else none,
        ⟨some "p1", some "N1", none⟩⟩,
       ⟨fun s => if s = "shared" ∨ s = "mem"
          then some (fun _ => none) else none,
        ⟨some "p2", some "N2", none⟩⟩]
      [("shared", "1"), ("cpu_a", "2"), ("mem", "3")]
      ⟨[], [], ⟨none, none, none⟩⟩ (by decide)).2 "shared"
        (by decide)).2 _ rfl

/-- C2: the build output is the per-template chunks in configured
template order followed by the optional time page; with duplicate-free
snapshot keys each chunk's sensor keys are in strictly increasing
lexicographic order; chunks contain only sensor pages; and builds over
snapshots with the same keys (hence identical snapshots) are
identical. -/
theorem build_pages_ordering (templates : List CompiledTemplate)
    (store store₂ : Store) (cfg : MonitorConfig) :
    build_pages templates store cfg =
      (build_chunks templates (sorted_sensor_keys store)).flatten
        ++ time_page_list cfg
    ∧ ((storeKeys store).Nodup →
        ∀ c ∈ build_chunks templates (sorted_sensor_keys store),
          (pages_sensor_keys c).Sorted (· < ·))
    ∧ (∀ c ∈ build_chunks templates (sorted_sensor_keys store),
        ∀ p ∈ c, ∃ sp, p = PageKind.sensor sp)
    ∧ ((storeKeys store).Perm (storeKeys store₂) →
        build_pages templates store cfg = build_pages templates store₂ cfg) := by
  refine ⟨build_pages_chunks templates store cfg, ?_, ?_, ?_⟩
  · intro hnd
    exact chunks_sorted templates _ (sorted_sensor_keys_sorted_lt hnd)
  · exact chunks_pages_sensor templates _
  · intro hperm
    unfold build_pages
    rw [sorted_sensor_keys_eq_of_perm hperm]

/-- Witness for C2: building over the same snapshot stored in two
different orders yields the same pages, and the single chunk's keys are
strictly sorted. -/
theorem build_pages_ordering_witness :
    build_pages
        [⟨fun s => if s = "a" ∨ s = "b" then some (fun _ => none) else none,
          ⟨some "p", some "N", none⟩⟩]
        [("b", "1"), ("a", "2")] ⟨[], [], ⟨some "T", none, none⟩⟩ =
      build_pages
        [⟨fun s => if s = "a" ∨ s = "b" then some (fun _ => none) else none,
          ⟨some "p", some "N", none⟩⟩]
        [("a", "2"), ("b", "1")] ⟨[], [], ⟨some "T", none, none⟩⟩
    ∧ (pages_sensor_keys
        (tpages
          ⟨fun s => if s = "a" ∨ s = "b" then some (fun _ => none) else none,
            ⟨some "p", some "N", none⟩⟩
          (sorted_sensor_keys [("b", "1"), ("a", "2")]))).Sorted (· < ·) :=
  ⟨(build_pages_ordering
      [⟨fun s => if s = "a" ∨ s = "b" then some (fun _ => none) else none,
        ⟨some "p", some "N", none⟩⟩]
      [("b", "1"), ("a", "2")] [("a", "2"), ("b", "1")]
      ⟨[], [], ⟨some "T", none, none⟩⟩).2.2.2 (by decide),
   (build_pages_ordering
      [⟨fun s => if s = "a" ∨ s = "b" then some (fun _ => none) else none,
        ⟨some "p", some "N", none⟩⟩]
      [("b", "1"), ("a", "2")] [("a", "2"), ("b", "1")]
      ⟨[], [], ⟨some "T", none, none⟩⟩).2.1 (by decide) _
        (List.mem_cons_self _ _)⟩

end Aoostar
